import Mathlib

/-!
# Verification of the file-organization automation engine

Shallow embedding of `SimpleFileAutomator` (level - 3 tasks /
task - 3_Automate a Task.py).  Filesystem paths are modelled as their
component lists (as `pathlib.Path.parts` does); the filesystem is an
association list from paths to file data.  The MD5 digest function is an
abstract parameter `hashFn` of the operations that hash: the code only
relies on the digest being a deterministic function of the file's bytes.
The unbounded `while target_file.exists()` loops of the source are given
a fuel parameter; `none` marks fuel exhaustion (the source loop would
still be running), and every theorem about a run is stated on runs that
returned a value.
-/

namespace FileAuto

/-- One path component list, as in `pathlib.Path.parts`. -/
abbrev FPath := List String

/-- The data stored at one file path.  `content` is the byte list;
`readable` is false when opening the file for reading raises (so MD5
hashing fails); `stat_fails` is false when `stat()` raises;
`move_fails` injects a `shutil.move` failure.  `myear`/`mmonth` are the
pre-formatted `%Y` and `%m-%B` renderings of the modification time. -/
structure FileData where
  content : List Nat
  readable : Bool := true
  stat_fails : Bool := false
  move_fails : Bool := false
  myear : String := "2024"
  mmonth : String := "03-March"
deriving DecidableEq, Repr

/-- The filesystem: an association list from paths to file data. -/
abbrev FS := List (FPath × FileData)

/-- Look a path up in the filesystem. -/
def FS.lookupPath : FS → FPath → Option FileData
  | [], _ => none
  | (q, d) :: rest, p => if q = p then some d else FS.lookupPath rest p

/-- `Path.exists()`. -/
def FS.existsPath (fs : FS) (p : FPath) : Bool :=
  (fs.lookupPath p).isSome

/-- Remove a path from the filesystem. -/
def FS.erasePath : FS → FPath → FS
  | [], _ => []
  | (q, d) :: rest, p =>
      if q = p then FS.erasePath rest p else (q, d) :: FS.erasePath rest p

/-- Write file data at a path, replacing whatever was there (POSIX
`rename` onto an existing file overwrites it). -/
def FS.insertPath (fs : FS) (p : FPath) (d : FileData) : FS :=
  (p, d) :: fs.erasePath p

/-- The mutable statistics dictionary `self.stats`. -/
structure Stats where
  files_processed : Nat := 0
  files_moved : Nat := 0
  duplicates_found : Nat := 0
  errors : Nat := 0
deriving DecidableEq, Repr

/-- The configuration, as produced by `load_config`. -/
structure Config where
  source_directory : FPath
  target_directory : FPath
  backup_directory : FPath
  file_types : List (String × List String)
  organize_by_date : Bool
  handle_duplicates : Bool
  create_backup : Bool
  generate_report : Bool
  min_file_size_kb : Nat

/-- The default category table from `load_config`. -/
def default_file_types : List (String × List String) :=
  [("Images", [".jpg", ".jpeg", ".png", ".gif", ".bmp", ".svg", ".webp"]),
   ("Documents", [".pdf", ".doc", ".docx", ".txt", ".rtf", ".odt"]),
   ("Spreadsheets", [".xls", ".xlsx", ".csv", ".ods"]),
   ("Videos", [".mp4", ".avi", ".mkv", ".mov", ".wmv", ".flv", ".webm"]),
   ("Audio", [".mp3", ".wav", ".flac", ".aac", ".ogg", ".m4a"]),
   ("Archives", [".zip", ".rar", ".7z", ".tar", ".gz", ".bz2"]),
   ("Code", [".py", ".js", ".html", ".css", ".java", ".cpp", ".c", ".php"]),
   ("Presentations", [".ppt", ".pptx", ".odp"])]

/-- The default configuration from `load_config`. -/
def default_config : Config :=
  { source_directory := ["test_source"]
    target_directory := ["organized_files"]
    backup_directory := ["backup"]
    file_types := default_file_types
    organize_by_date := true
    handle_duplicates := true
    create_backup := false
    generate_report := true
    min_file_size_kb := 1 }

/-- Index of the last `.` in a character list (`str.rfind`). -/
def lastDotIdx : List Char → Nat → Option Nat → Option Nat
  | [], _, acc => acc
  | c :: cs, i, acc => lastDotIdx cs (i + 1) (if c = '.' then some i else acc)

/-- `pathlib`'s split of a file name into `stem` and `suffix`: the
suffix starts at the last dot, provided that dot is neither the first
nor the last character of the name. -/
def splitName (name : String) : String × String :=
  let l := name.data
  match lastDotIdx l 0 none with
  | some i =>
      if 0 < i ∧ i < l.length - 1 then (⟨l.take i⟩, ⟨l.drop i⟩)
      else (name, "")
  | none => (name, "")

/-- `Path.name`: the last component. -/
def lastComponent (p : FPath) : String := p.getLast?.getD ""

/-- `Path.parent.parts`: all but the last component. -/
def parentParts (p : FPath) : FPath := p.dropLast

/-- `Path.suffix` of the whole path. -/
def pathSuffix (p : FPath) : String := (splitName (lastComponent p)).2

/-- `calculate_file_hash`: stream the file and digest it; `None` when
reading raises. -/
def calculate_file_hash (hashFn : List Nat → List Nat) (fs : FS) (filepath : FPath) :
    Option (List Nat) :=
  match fs.lookupPath filepath with
  | some fd => if fd.readable then some (hashFn fd.content) else none
  | none => none

/-- `str.lower()`: character-wise lowering.  (Structurally recursive
and provably equal to `String.toLower`, see `str_toLower_eq`.) -/
def str_toLower (s : String) : String := ⟨s.data.map Char.toLower⟩

/-- `get_file_category`: lower-case the extension, return the first
configured category whose extension list contains it, else `Others`. -/
def get_file_category (file_types : List (String × List String))
    (file_extension : String) : String :=
  let file_ext := str_toLower file_extension
  match file_types.find? (fun p => p.2.contains file_ext) with
  | some p => p.1
  | none => "Others"

/-- `create_directory_structure`: the target directory for a category
(and the file's modification year/month when organizing by date).
Directory creation itself has no effect in this model. -/
def create_directory_structure (cfg : Config) (base : FPath) (category : String)
    (myear mmonth : String) : FPath :=
  if cfg.organize_by_date then base ++ [category, myear, mmonth]
  else base ++ [category]

/-- `is_file_too_small`: `st_size / 1024 < min_file_size_kb`, with any
`stat` exception caught and answered `False`. -/
def is_file_too_small (cfg : Config) (fs : FS) (file_path : FPath) : Bool :=
  match fs.lookupPath file_path with
  | none => false
  | some fd =>
      if fd.stat_fails then false
      else decide (fd.content.length < cfg.min_file_size_kb * 1024)

/-- The `while target_file.exists()` collision loop shared by
`handle_duplicate` (`tag = "_copy"`) and `create_backup`
(`tag = "_backup"`): starting from `current`, repeatedly build
`parent / (stem ++ tag ++ counter ++ ext)` until a free path is found.
`none` when the fuel runs out. -/
def unique_name_loop (fs : FS) (parent : FPath) (stem ext tag : String) :
    Nat → FPath → Nat → Option FPath
  | _, _, 0 => none
  | counter, current, fuel + 1 =>
      if fs.existsPath current then
        unique_name_loop fs parent stem ext tag (counter + 1)
          (parent ++ [stem ++ tag ++ toString counter ++ ext]) fuel
      else some current

/-- The duplicate test inside `handle_duplicate` (lines 140-144): the
target exists and both hashes were computed and they are equal. -/
def duplicate_check (hashFn : List Nat → List Nat) (fs : FS)
    (source_file target_file : FPath) : Bool :=
  if fs.existsPath target_file then
    match calculate_file_hash hashFn fs source_file,
          calculate_file_hash hashFn fs target_file with
    | some source_hash, some target_hash => decide (source_hash = target_hash)
    | _, _ => false
  else false

/-- `handle_duplicate`.  Returns `(stats, none)` for a skipped
duplicate, `(stats, some path)` with the path to move to otherwise;
the outer `none` is collision-loop fuel exhaustion. -/
def handle_duplicate (hashFn : List Nat → List Nat) (cfg : Config) (fuel : Nat)
    (fs : FS) (stats : Stats) (source_file target_file : FPath) :
    Option (Stats × Option FPath) :=
  if !cfg.handle_duplicates then some (stats, some target_file)
  else if duplicate_check hashFn fs source_file target_file then
    some ({ stats with duplicates_found := stats.duplicates_found + 1 }, none)
  else
    match unique_name_loop fs (parentParts target_file)
        (splitName (lastComponent target_file)).1
        (splitName (lastComponent target_file)).2 "_copy"
        1 target_file fuel with
    | some t => some (stats, some t)
    | none => none

/-- `create_backup`: no-op unless enabled; otherwise copy the source
file into `backup_directory/today`, resolving collisions with
`_backupN`.  A failing copy is caught inside and leaves the filesystem
unchanged. -/
def create_backup (cfg : Config) (today : String) (fuel : Nat) (fs : FS)
    (source_file : FPath) : Option FS :=
  if !cfg.create_backup then some fs
  else
    let daily := cfg.backup_directory ++ [today]
    let name := lastComponent source_file
    let backup_file := daily ++ [name]
    let stem := (splitName name).1
    let ext := (splitName name).2
    match unique_name_loop fs daily stem ext "_backup" 1 backup_file fuel with
    | none => none
    | some bf =>
        match fs.lookupPath source_file with
        | none => some fs
        | some fd => if fd.readable then some (fs.insertPath bf fd) else some fs

/-- The candidate destination path of a file (lines 242-252): target
directory structure for its category and modification date, then the
file's own name. -/
def candidate_dest (cfg : Config) (file_path : FPath) (fd : FileData) : FPath :=
  create_directory_structure cfg cfg.target_directory
    (get_file_category cfg.file_types (pathSuffix file_path)) fd.myear fd.mmonth
    ++ [lastComponent file_path]

/-- The terminal outcome of processing one enumerated file.  The moved
outcome carries the file's category, extension and size for report
recomputation. -/
inductive Outcome where
  | moved (src dest : FPath) (category ext : String) (size : Nat)
  | skipped_small (src : FPath)
  | skipped_duplicate (src : FPath)
  | errored (src : FPath)
deriving DecidableEq, Repr

/-- The source path an outcome is about. -/
def Outcome.src : Outcome → FPath
  | .moved s _ _ _ _ => s
  | .skipped_small s => s
  | .skipped_duplicate s => s
  | .errored s => s

/-- The body of the `for file_path in all_files` loop of
`organize_files` (lines 233-273), including its `try/except`: one
enumerated file is processed against the current filesystem and
statistics, yielding the new filesystem, new statistics and the file's
terminal outcome. -/
def process_file (hashFn : List Nat → List Nat) (cfg : Config) (today : String)
    (fuel : Nat) (fs : FS) (stats : Stats) (file_path : FPath) :
    Option (FS × Stats × Outcome) :=
  let stats := { stats with files_processed := stats.files_processed + 1 }
  if is_file_too_small cfg fs file_path then
    some (fs, stats, .skipped_small file_path)
  else
    match fs.lookupPath file_path with
    | none =>
        some (fs, { stats with errors := stats.errors + 1 }, .errored file_path)
    | some fd =>
        if fd.stat_fails then
          some (fs, { stats with errors := stats.errors + 1 }, .errored file_path)
        else
          let file_extension := pathSuffix file_path
          let file_category := get_file_category cfg.file_types file_extension
          match handle_duplicate hashFn cfg fuel fs stats file_path
              (candidate_dest cfg file_path fd) with
          | none => none
          | some (stats2, none) =>
              some (fs, stats2, .skipped_duplicate file_path)
          | some (stats2, some final_target) =>
              match create_backup cfg today fuel fs file_path with
              | none => none
              | some fs2 =>
                  if fd.move_fails then
                    some (fs2, { stats2 with errors := stats2.errors + 1 },
                          .errored file_path)
                  else
                    some ((fs2.erasePath file_path).insertPath final_target fd,
                          { stats2 with files_moved := stats2.files_moved + 1 },
                          .moved file_path final_target file_category
                            file_extension fd.content.length)

/-- The full `for` loop of `organize_files` over the enumerated file
list, threading the filesystem and statistics and collecting every
file's terminal outcome. -/
def organize_loop (hashFn : List Nat → List Nat) (cfg : Config) (today : String)
    (fuel : Nat) : List FPath → FS → Stats → Option (FS × Stats × List Outcome)
  | [], fs, stats => some (fs, stats, [])
  | f :: rest, fs, stats =>
      match process_file hashFn cfg today fuel fs stats f with
      | none => none
      | some (fs', stats', o) =>
          match organize_loop hashFn cfg today fuel rest fs' stats' with
          | none => none
          | some (fs'', stats'', os) => some (fs'', stats'', o :: os)

/-- The structured report data built by `generate_report`: the
statistics dictionary copied verbatim, plus category / extension / size
breakdowns, modelled as counting functions. -/
structure Report where
  statistics : Stats
  category_stats : String → Nat
  type_stats : String → Nat
  size_stats : String → Nat

/-- `target_dir.rglob('*')` restricted to files: every filesystem entry
strictly below the target directory. -/
def target_tree_files (cfg : Config) (fs : FS) : FS :=
  fs.filter (fun e =>
    cfg.target_directory.isPrefixOf e.1 &&
    decide (cfg.target_directory.length < e.1.length))

/-- The report's per-file category: the first path component that is a
key of the configured category table, defaulting to `Others`. -/
def part_category (file_types : List (String × List String)) (p : FPath) : String :=
  match p.find? (fun part => (file_types.map Prod.fst).contains part) with
  | some part => part
  | none => "Others"

/-- `generate_report` (the in-memory report data): `None` when report
generation is disabled.  The statistics section is `self.stats.copy()`;
the breakdowns are recomputed by walking the current target tree, a
file's size being skipped when `stat` raises. -/
def generate_report (cfg : Config) (fs : FS) (stats : Stats) : Option Report :=
  if !cfg.generate_report then none
  else
    let files := target_tree_files cfg fs
    some
      { statistics := stats
        category_stats := fun c =>
          files.countP (fun e => decide (part_category cfg.file_types e.1 = c))
        type_stats := fun ext =>
          files.countP (fun e => decide (str_toLower (pathSuffix e.1) = ext))
        size_stats := fun c =>
          (files.map (fun e =>
            if part_category cfg.file_types e.1 = c then
              if e.2.stat_fails then 0 else e.2.content.length
            else 0)).sum }

/-- Is this outcome a move? -/
def Outcome.isMovedO : Outcome → Bool
  | .moved .. => true
  | _ => false

/-- Is this outcome a too-small skip? -/
def Outcome.isSmallO : Outcome → Bool
  | .skipped_small _ => true
  | _ => false

/-- Is this outcome a duplicate skip? -/
def Outcome.isDupO : Outcome → Bool
  | .skipped_duplicate _ => true
  | _ => false

/-- Is this outcome an error? -/
def Outcome.isErrO : Outcome → Bool
  | .errored _ => true
  | _ => false

/-- Modelled from the spec (§4.8 ReportAssembler, absent from the
source): the aggregate counters recomputed from the run's own per-file
outcome list. -/
def outcomes_counters (os : List Outcome) : Stats :=
  { files_processed := os.length
    files_moved := os.countP Outcome.isMovedO
    duplicates_found := os.countP Outcome.isDupO
    errors := os.countP Outcome.isErrO }

/-- Modelled from the spec (§4.8 ReportAssembler, absent from the
source): the per-category file count recomputed from the run's own
per-file outcome list. -/
def outcomes_category_count (os : List Outcome) (c : String) : Nat :=
  os.countP (fun o => match o with | .moved _ _ cat _ _ => cat = c | _ => false)

/-- The candidate name the collision loop builds for counter `n`. -/
def loop_candidate (parent : FPath) (stem tag ext : String) (n : Nat) : FPath :=
  parent ++ [stem ++ tag ++ toString n ++ ext]

/-! ## Concrete inputs used by witnesses and counterexamples -/

/-- A 1-byte file below a 5 KB threshold. -/
def wTiny : FPath := ["test_source", "tiny.txt"]

/-- Its data. -/
def wTinyData : FileData := { content := [1] }

/-- A filesystem holding only the tiny file. -/
def wFsTiny : FS := [(wTiny, wTinyData)]

/-- Default configuration with a 5 KB minimum size. -/
def wCfg5 : Config := { default_config with min_file_size_kb := 5 }

/-- Default configuration with no minimum size. -/
def wCfg0 : Config := { default_config with min_file_size_kb := 0 }

/-- `wCfg0` with duplicate handling disabled. -/
def wCfgNoDup : Config := { wCfg0 with handle_duplicates := false }

/-- A source text file. -/
def wSrcA : FPath := ["test_source", "a.txt"]

/-- A second source file with the same name in a subdirectory. -/
def wSrcB : FPath := ["test_source", "sub", "a.txt"]

/-- The candidate destination both source files map to under the
default (by-date) layout. -/
def wDest : FPath := ["organized_files", "Documents", "2024", "03-March", "a.txt"]

/-- The `_copy1` sibling of `wDest`. -/
def wCopy1 : FPath := ["organized_files", "Documents", "2024", "03-March", "a_copy1.txt"]

/-- Content of the first file. -/
def wDataA : FileData := { content := [1, 2] }

/-- Different content for the second file. -/
def wDataB : FileData := { content := [3, 4] }

/-- Same content as `wDataA` for the duplicate scenario. -/
def wDataA2 : FileData := { content := [1, 2] }

/-- An unreadable variant of `wDataA` (hashing it fails). -/
def wDataU : FileData := { content := [1, 2], readable := false }

/-- A variant of `wDataA` whose move fails. -/
def wDataM : FileData := { content := [1, 2], move_fails := true }

/-- Source file plus an occupied destination with different content. -/
def wFsOcc : FS := [(wSrcA, wDataA), (wDest, wDataB)]

/-- Unreadable source plus an occupied destination. -/
def wFsHash : FS := [(wSrcA, wDataU), (wDest, wDataB)]

/-- A filesystem whose only file fails to move. -/
def wFsErr : FS := [(wSrcA, wDataM)]

/-- A target tree holding a pre-existing file no run ever moved. -/
def wFsPre : FS := [(["organized_files", "Images", "x.jpg"], { content := [5] })]

/-- The two-file duplicate scenario: identical content, same name. -/
def wFsDup : FS := [(wSrcA, wDataA), (wSrcB, wDataA2)]

/-- The two-file collision scenario: differing content, same name. -/
def wFsColl : FS := [(wSrcA, wDataA), (wSrcB, wDataB)]

/-- Third source file named `a.txt` with content unlike the others. -/
def wX : FPath := ["test_source", "x", "a.txt"]

/-- One of two byte-identical files named `a.txt`. -/
def wB : FPath := ["test_source", "y", "a.txt"]

/-- The other byte-identical file named `a.txt`. -/
def wC : FPath := ["test_source", "z", "a.txt"]

/-- Content of `wX`. -/
def wDataX : FileData := { content := [9] }

/-- Three files all mapping to the same candidate destination. -/
def wFsTriple : FS := [(wX, wDataX), (wB, wDataA), (wC, wDataA2)]

/-- The `_copy2` sibling of `wDest`. -/
def wCopy2 : FPath := ["organized_files", "Documents", "2024", "03-March", "a_copy2.txt"]

/-! ## Basic filesystem lemmas -/

theorem lookupPath_erasePath (fs : FS) (p q : FPath) :
    (fs.erasePath p).lookupPath q = if q = p then none else fs.lookupPath q := by
  induction fs with
  | nil =>
      simp only [FS.erasePath, FS.lookupPath]
      split <;> rfl
  | cons e rest ih =>
      rcases e with ⟨r, d⟩
      simp only [FS.erasePath]
      by_cases hrp : r = p
      · rw [if_pos hrp, ih]
        by_cases hqp : q = p
        · simp [hqp]
        · have hrq : ¬r = q := fun h => hqp (by rw [← h, hrp])
          simp [hqp, FS.lookupPath, hrq]
      · rw [if_neg hrp]
        simp only [FS.lookupPath, ih]
        by_cases hrq : r = q
        · have hqp : ¬q = p := fun h => hrp (by rw [hrq, h])
          simp [hrq, hqp]
        · simp [hrq]

theorem lookupPath_insertPath (fs : FS) (p q : FPath) (d : FileData) :
    (fs.insertPath p d).lookupPath q = if p = q then some d else fs.lookupPath q := by
  simp only [FS.insertPath, FS.lookupPath]
  by_cases h : p = q
  · simp [h]
  · rw [if_neg h, lookupPath_erasePath, if_neg (fun hh : q = p => h hh.symm), if_neg h]

theorem existsPath_iff_lookup (fs : FS) (p : FPath) :
    fs.existsPath p = true ↔ ∃ d, fs.lookupPath p = some d := by
  simp [FS.existsPath, Option.isSome_iff_exists]

/-! ## The collision loop -/

theorem unique_name_loop_spec (fs : FS) (parent : FPath) (stem ext tag : String) :
    ∀ fuel counter current p,
      unique_name_loop fs parent stem ext tag counter current fuel = some p →
      fs.existsPath p = false ∧
      (p = current ∨
        (fs.existsPath current = true ∧
          ∃ n, counter ≤ n ∧ p = loop_candidate parent stem tag ext n ∧
            ∀ m, counter ≤ m → m < n →
              fs.existsPath (loop_candidate parent stem tag ext m) = true)) := by
  intro fuel
  induction fuel with
  | zero => intro counter current p h; simp [unique_name_loop] at h
  | succ f ih =>
      intro counter current p h
      simp only [unique_name_loop] at h
      by_cases hex : fs.existsPath current = true
      · rw [if_pos hex] at h
        obtain ⟨hfree, hcase⟩ := ih (counter + 1)
          (parent ++ [stem ++ tag ++ toString counter ++ ext]) p h
        refine ⟨hfree, Or.inr ⟨hex, ?_⟩⟩
        rcases hcase with hcur | ⟨hex2, n, hn, hp, hall⟩
        · exact ⟨counter, Nat.le_refl _, hcur, fun m hm1 hm2 => absurd hm2 (by omega)⟩
        · refine ⟨n, by omega, hp, fun m hm1 hm2 => ?_⟩
          rcases Nat.eq_or_lt_of_le hm1 with rfl | hlt
          · exact hex2
          · exact hall m hlt hm2
      · rw [if_neg hex] at h
        cases h
        exact ⟨Bool.not_eq_true _ ▸ (by simpa using hex), Or.inl rfl⟩

/-! ## Shape lemmas for the per-file step -/

theorem handle_duplicate_stats (hashFn : List Nat → List Nat) (cfg : Config)
    (fuel : Nat) (fs : FS) (st : Stats) (src tgt : FPath) (st2 : Stats)
    (r : Option FPath)
    (h : handle_duplicate hashFn cfg fuel fs st src tgt = some (st2, r)) :
    ((∃ t, r = some t) ∧ st2 = st) ∨
    (r = none ∧ st2 = { st with duplicates_found := st.duplicates_found + 1 }) := by
  simp only [handle_duplicate] at h
  split at h
  · cases h; exact Or.inl ⟨⟨tgt, rfl⟩, rfl⟩
  · split at h
    · cases h; exact Or.inr ⟨rfl, rfl⟩
    · split at h
      · cases h
        rename_i t _
        exact Or.inl ⟨⟨t, rfl⟩, rfl⟩
      · cases h

theorem create_backup_preserves (cfg : Config) (today : String) (fuel : Nat)
    (fs : FS) (src : FPath) (fs2 : FS)
    (h : create_backup cfg today fuel fs src = some fs2) :
    ∀ q, fs.existsPath q = true → fs2.lookupPath q = fs.lookupPath q := by
  intro q hq
  simp only [create_backup] at h
  split at h
  · cases h; rfl
  · split at h
    · cases h
    · rename_i bf hloop
      have hfree := (unique_name_loop_spec fs _ _ _ _ _ _ _ _ hloop).1
      have hbfq : ¬bf = q := by
        intro hh; rw [hh] at hfree; rw [hq] at hfree; cases hfree
      split at h
      · cases h; rfl
      · split at h <;> cases h
        · rw [lookupPath_insertPath, if_neg hbfq]
        · rfl

theorem process_file_cases (hashFn : List Nat → List Nat) (cfg : Config)
    (today : String) (fuel : Nat) (fs : FS) (st : Stats) (f : FPath)
    (fs' : FS) (st' : Stats) (o : Outcome)
    (h : process_file hashFn cfg today fuel fs st f = some (fs', st', o)) :
    o.src = f ∧ st'.files_processed = st.files_processed + 1 ∧
    ((o = .skipped_small f ∧ fs' = fs ∧ st'.files_moved = st.files_moved ∧
        st'.duplicates_found = st.duplicates_found ∧ st'.errors = st.errors) ∨
     (o = .skipped_duplicate f ∧ fs' = fs ∧ st'.files_moved = st.files_moved ∧
        st'.duplicates_found = st.duplicates_found + 1 ∧ st'.errors = st.errors) ∨
     ((∃ d c e n, o = .moved f d c e n) ∧ st'.files_moved = st.files_moved + 1 ∧
        st'.duplicates_found = st.duplicates_found ∧ st'.errors = st.errors) ∨
     (o = .errored f ∧ st'.files_moved = st.files_moved ∧
        st'.duplicates_found = st.duplicates_found ∧ st'.errors = st.errors + 1)) := by
  simp only [process_file] at h
  split at h
  · cases h
    exact ⟨rfl, rfl, Or.inl ⟨rfl, rfl, rfl, rfl, rfl⟩⟩
  · split at h
    · cases h
      exact ⟨rfl, rfl, Or.inr (Or.inr (Or.inr ⟨rfl, rfl, rfl, rfl⟩))⟩
    · split at h
      · cases h
        exact ⟨rfl, rfl, Or.inr (Or.inr (Or.inr ⟨rfl, rfl, rfl, rfl⟩))⟩
      · split at h
        · cases h
        · rename_i st2 hdup
          have hst2 := handle_duplicate_stats hashFn cfg fuel fs _ f _ st2 none hdup
          rcases hst2 with ⟨⟨t, ht⟩, _⟩ | ⟨_, hst2⟩
          · cases ht
          · cases h
            subst hst2
            exact ⟨rfl, rfl, Or.inr (Or.inl ⟨rfl, rfl, rfl, rfl, rfl⟩)⟩
        · rename_i st2 final_target hdup
          have hst2 := handle_duplicate_stats hashFn cfg fuel fs _ f _ st2
            (some final_target) hdup
          rcases hst2 with ⟨_, hst2⟩ | ⟨hnone, _⟩
          · subst hst2
            split at h
            · cases h
            · split at h <;> cases h
              · exact ⟨rfl, rfl, Or.inr (Or.inr (Or.inr ⟨rfl, rfl, rfl, rfl⟩))⟩
              · exact ⟨rfl, rfl, Or.inr (Or.inr (Or.inl
                  ⟨⟨final_target, _, _, _, rfl⟩, rfl, rfl, rfl⟩))⟩
          · cases hnone

/-! ## Run-level counting -/

theorem outcome_partition (os : List Outcome) :
    os.countP Outcome.isMovedO + os.countP Outcome.isSmallO +
      os.countP Outcome.isDupO + os.countP Outcome.isErrO = os.length := by
  induction os with
  | nil => simp
  | cons o rest ih =>
      cases o <;>
        simp [List.countP_cons, Outcome.isMovedO, Outcome.isSmallO,
          Outcome.isDupO, Outcome.isErrO] <;> omega

theorem organize_loop_trace (hashFn : List Nat → List Nat) (cfg : Config)
    (today : String) (fuel : Nat) :
    ∀ (files : List FPath) (fs : FS) (st : Stats) (fs' : FS) (st' : Stats)
      (os : List Outcome),
      organize_loop hashFn cfg today fuel files fs st = some (fs', st', os) →
      os.map Outcome.src = files ∧
      st'.files_processed = st.files_processed + os.length ∧
      st'.files_moved = st.files_moved + os.countP Outcome.isMovedO ∧
      st'.duplicates_found = st.duplicates_found + os.countP Outcome.isDupO ∧
      st'.errors = st.errors + os.countP Outcome.isErrO := by
  intro files
  induction files with
  | nil =>
      intro fs st fs' st' os h
      simp only [organize_loop] at h
      cases h
      simp
  | cons f rest ih =>
      intro fs st fs' st' os h
      cases hstep : process_file hashFn cfg today fuel fs st f with
      | none =>
          simp only [organize_loop, hstep] at h
          exact Option.noConfusion h
      | some r =>
          obtain ⟨fs1, st1, o⟩ := r
          cases hrest : organize_loop hashFn cfg today fuel rest fs1 st1 with
          | none =>
              simp only [organize_loop, hstep, hrest] at h
              exact Option.noConfusion h
          | some r2 =>
              obtain ⟨fs2, st2, os2⟩ := r2
              simp only [organize_loop, hstep, hrest, Option.some.injEq,
                Prod.mk.injEq] at h
              obtain ⟨h1, h2, h3⟩ := h
              subst h1; subst h2; subst h3
              obtain ⟨hsrc, hp, hm, hd, he⟩ := ih fs1 st1 fs2 st2 os2 hrest
              obtain ⟨osrc, hp1, hcases⟩ :=
                process_file_cases hashFn cfg today fuel fs st f fs1 st1 o hstep
              refine ⟨by simp [hsrc, osrc], ?_, ?_, ?_, ?_⟩ <;>
                simp only [List.length_cons, List.countP_cons] <;>
                rcases hcases with ⟨ho, _, h1, h2, h3⟩ | ⟨ho, _, h1, h2, h3⟩ |
                  ⟨⟨d, c, e, n, ho⟩, h1, h2, h3⟩ | ⟨ho, h1, h2, h3⟩ <;>
                subst ho <;>
                simp [Outcome.isMovedO, Outcome.isDupO, Outcome.isErrO, hp, hp1,
                  hm, hd, he, h1, h2, h3] <;>
                omega

/-! ## Claim theorems -/

/-- C7: a file smaller than the `min_file_size_kb` threshold is never
moved and no destination entry is created for it — the filesystem is
returned unchanged, so the file remains at the source — while
`files_processed` is incremented and `files_moved` is not. -/
theorem c7_small_file_remains (hashFn : List Nat → List Nat) (cfg : Config)
    (today : String) (fuel : Nat) (fs : FS) (st : Stats) (f : FPath)
    (fd : FileData) (hlook : fs.lookupPath f = some fd)
    (hstat : fd.stat_fails = false)
    (hsmall : fd.content.length < cfg.min_file_size_kb * 1024) :
    process_file hashFn cfg today fuel fs st f =
      some (fs, { st with files_processed := st.files_processed + 1 },
        Outcome.skipped_small f) := by
  have h : is_file_too_small cfg fs f = true := by
    simp [is_file_too_small, hlook, hstat, hsmall]
  simp [process_file, h]

/-- C7 witness: a 1-byte `tiny.txt` under a 5 KB threshold stays put;
`files_processed` becomes 1, `files_moved` stays 0. -/
theorem c7_small_file_remains_witness :
    process_file id wCfg5 "t" 3 wFsTiny ⟨0, 0, 0, 0⟩ wTiny =
      some (wFsTiny, ⟨1, 0, 0, 0⟩, Outcome.skipped_small wTiny) := by
  exact c7_small_file_remains id wCfg5 "t" 3 wFsTiny ⟨0, 0, 0, 0⟩ wTiny wTinyData
    (by decide) (by decide) (by decide)

/-- C2 is false on the code: with `handle_duplicates` disabled and the
candidate destination already occupied, `handle_duplicate` returns the
occupied candidate path itself — no `_copy{N}` renaming — so the move
does target the already-occupied path. -/
theorem c2_counterexample :
    FS.existsPath wFsOcc wDest = true ∧
    handle_duplicate id wCfgNoDup 3 wFsOcc ⟨0, 0, 0, 0⟩ wSrcA wDest =
      some (⟨0, 0, 0, 0⟩, some wDest) := by
  exact ⟨by decide, by decide⟩

/-- C2 (amended): when `handle_duplicates` is false the resolver
returns the candidate path unchanged — it performs no existence check
and no `_copy{N}` renaming — so the subsequent move may overwrite an
occupied destination path. -/
theorem c2_disabled_returns_candidate (hashFn : List Nat → List Nat)
    (cfg : Config) (fuel : Nat) (fs : FS) (st : Stats) (src tgt : FPath)
    (h : cfg.handle_duplicates = false) :
    handle_duplicate hashFn cfg fuel fs st src tgt = some (st, some tgt) := by
  simp [handle_duplicate, h]

/-- C2 amended-claim witness at the occupied concrete destination. -/
theorem c2_disabled_returns_candidate_witness :
    handle_duplicate id wCfgNoDup 3 wFsOcc ⟨0, 0, 0, 0⟩ wSrcA wDest =
      some (⟨0, 0, 0, 0⟩, some wDest) :=
  c2_disabled_returns_candidate id wCfgNoDup 3 wFsOcc ⟨0, 0, 0, 0⟩ wSrcA wDest rfl

/-- C6: if the candidate destination exists but either hash computation
fails, the pair is treated as a non-duplicate: the statistics (in
particular `duplicates_found`) are unchanged and the resolver falls
through to the rename path, returning a path that is free on disk; the
hashing failure never escapes `handle_duplicate`. -/
theorem c6_hash_failure_nonfatal (hashFn : List Nat → List Nat) (cfg : Config)
    (fuel : Nat) (fs : FS) (st : Stats) (src tgt : FPath) (st' : Stats)
    (r : Option FPath)
    (hdup : cfg.handle_duplicates = true)
    (hex : fs.existsPath tgt = true)
    (hfail : calculate_file_hash hashFn fs src = none ∨
      calculate_file_hash hashFn fs tgt = none)
    (h : handle_duplicate hashFn cfg fuel fs st src tgt = some (st', r)) :
    st' = st ∧ ∃ p, r = some p ∧ fs.existsPath p = false := by
  have hchk : duplicate_check hashFn fs src tgt = false := by
    unfold duplicate_check
    rw [if_pos hex]
    rcases hfail with hf | hf
    · rw [hf]
    · rw [hf]
      cases calculate_file_hash hashFn fs src <;> rfl
  simp only [handle_duplicate, hdup, Bool.not_true, Bool.false_eq_true,
    if_false, hchk] at h
  cases hloop : unique_name_loop fs (parentParts tgt)
      (splitName (lastComponent tgt)).1 (splitName (lastComponent tgt)).2
      "_copy" 1 tgt fuel with
  | none =>
      rw [hloop] at h
      exact Option.noConfusion h
  | some p =>
      rw [hloop] at h
      simp only [Option.some.injEq, Prod.mk.injEq] at h
      obtain ⟨h1, h2⟩ := h
      exact ⟨h1.symm, p, h2.symm,
        (unique_name_loop_spec fs _ _ _ _ _ _ _ _ hloop).1⟩

/-- C6 witness: unreadable source, occupied destination — statistics
unchanged and the resolver answers the free `_copy1` sibling. -/
theorem c6_hash_failure_nonfatal_witness :
    (⟨0, 0, 0, 0⟩ : Stats) = ⟨0, 0, 0, 0⟩ ∧
    ∃ p, (some wCopy1 : Option FPath) = some p ∧
      FS.existsPath wFsHash p = false := by
  exact c6_hash_failure_nonfatal id wCfg0 3 wFsHash ⟨0, 0, 0, 0⟩ wSrcA wDest
    ⟨0, 0, 0, 0⟩ (some wCopy1) rfl (by decide) (Or.inl (by decide)) (by decide)

/-- C10: starting from statistics satisfying
`files_moved + duplicates_found + errors ≤ files_processed`, the
invariant still holds after any run of the processing loop: each file
increments `files_processed` exactly once and at most one of the other
three counters. -/
theorem c10_counter_inequality (hashFn : List Nat → List Nat) (cfg : Config)
    (today : String) (fuel : Nat) (files : List FPath) (fs : FS) (st : Stats)
    (fs' : FS) (st' : Stats) (os : List Outcome)
    (hinv : st.files_moved + st.duplicates_found + st.errors ≤ st.files_processed)
    (hrun : organize_loop hashFn cfg today fuel files fs st = some (fs', st', os)) :
    st'.files_moved + st'.duplicates_found + st'.errors ≤ st'.files_processed := by
  obtain ⟨_, hp, hm, hd, he⟩ :=
    organize_loop_trace hashFn cfg today fuel files fs st fs' st' os hrun
  have hpart := outcome_partition os
  omega

/-- C10 witness on the tiny-file run. -/
theorem c10_counter_inequality_witness :
    (⟨1, 0, 0, 0⟩ : Stats).files_moved + (⟨1, 0, 0, 0⟩ : Stats).duplicates_found +
      (⟨1, 0, 0, 0⟩ : Stats).errors ≤ (⟨1, 0, 0, 0⟩ : Stats).files_processed := by
  exact c10_counter_inequality id wCfg5 "t" 3 [wTiny] wFsTiny ⟨0, 0, 0, 0⟩
    wFsTiny ⟨1, 0, 0, 0⟩ [Outcome.skipped_small wTiny] (by decide) (by decide)

/-- C8: per-file failures are contained: a completed run yields exactly
one outcome per enumerated file in order (no file's failure aborts the
processing of later files, and the loop reaches its end even when every
file errors), and the `errors` counter grows by exactly the number of
errored outcomes, so every caught exception is recorded. -/
theorem c8_errors_contained (hashFn : List Nat → List Nat) (cfg : Config)
    (today : String) (fuel : Nat) (files : List FPath) (fs : FS) (st : Stats)
    (fs' : FS) (st' : Stats) (os : List Outcome)
    (hrun : organize_loop hashFn cfg today fuel files fs st = some (fs', st', os)) :
    os.length = files.length ∧ os.map Outcome.src = files ∧
    st'.errors = st.errors + os.countP Outcome.isErrO := by
  obtain ⟨hsrc, _, _, _, he⟩ :=
    organize_loop_trace hashFn cfg today fuel files fs st fs' st' os hrun
  refine ⟨?_, hsrc, he⟩
  rw [← hsrc, List.length_map]

/-- C8 witness: a run whose single file fails to move still terminates,
produces one errored outcome and counts one error. -/
theorem c8_errors_contained_witness :
    ([Outcome.errored wSrcA] : List Outcome).length = ([wSrcA] : List FPath).length ∧
    ([Outcome.errored wSrcA] : List Outcome).map Outcome.src = [wSrcA] ∧
    (⟨1, 0, 0, 1⟩ : Stats).errors =
      (⟨0, 0, 0, 0⟩ : Stats).errors +
        ([Outcome.errored wSrcA] : List Outcome).countP Outcome.isErrO := by
  exact c8_errors_contained id wCfg0 "t" 3 [wSrcA] wFsErr ⟨0, 0, 0, 0⟩
    wFsErr ⟨1, 0, 0, 1⟩ [Outcome.errored wSrcA] (by decide)

/-- C4 is false as stated: a file below the size threshold is
enumerated and processed but its terminal outcome is the too-small
skip, which is none of moved / skipped-as-duplicate / errored. -/
theorem c4_counterexample :
    organize_loop id wCfg5 "t" 3 [wTiny] wFsTiny ⟨0, 0, 0, 0⟩ =
      some (wFsTiny, ⟨1, 0, 0, 0⟩, [Outcome.skipped_small wTiny]) ∧
    (Outcome.isMovedO (Outcome.skipped_small wTiny) ||
     Outcome.isDupO (Outcome.skipped_small wTiny) ||
     Outcome.isErrO (Outcome.skipped_small wTiny)) = false := by
  exact ⟨by decide, by decide⟩

/-- C4 (amended): every enumerated file yields exactly one terminal
outcome — moved, skipped-as-too-small, skipped-as-duplicate, or
errored — in enumeration order and with none dropped: the outcome list
maps back onto the file list and the four outcome kinds partition it. -/
theorem c4_one_outcome_each (hashFn : List Nat → List Nat) (cfg : Config)
    (today : String) (fuel : Nat) (files : List FPath) (fs : FS) (st : Stats)
    (fs' : FS) (st' : Stats) (os : List Outcome)
    (hrun : organize_loop hashFn cfg today fuel files fs st = some (fs', st', os)) :
    os.map Outcome.src = files ∧
    os.countP Outcome.isMovedO + os.countP Outcome.isSmallO +
      os.countP Outcome.isDupO + os.countP Outcome.isErrO = os.length := by
  obtain ⟨hsrc, _, _, _, _⟩ :=
    organize_loop_trace hashFn cfg today fuel files fs st fs' st' os hrun
  exact ⟨hsrc, outcome_partition os⟩

/-- C4 amended-claim witness on the tiny-file run. -/
theorem c4_one_outcome_each_witness :
    ([Outcome.skipped_small wTiny] : List Outcome).map Outcome.src = [wTiny] ∧
    ([Outcome.skipped_small wTiny] : List Outcome).countP Outcome.isMovedO +
      ([Outcome.skipped_small wTiny] : List Outcome).countP Outcome.isSmallO +
      ([Outcome.skipped_small wTiny] : List Outcome).countP Outcome.isDupO +
      ([Outcome.skipped_small wTiny] : List Outcome).countP Outcome.isErrO =
      ([Outcome.skipped_small wTiny] : List Outcome).length := by
  exact c4_one_outcome_each id wCfg5 "t" 3 [wTiny] wFsTiny ⟨0, 0, 0, 0⟩
    wFsTiny ⟨1, 0, 0, 0⟩ [Outcome.skipped_small wTiny] (by decide)

/-- C5 is false on the code: the report's breakdowns are recomputed by
walking the current target-directory tree, not from the run's outcome
list — a run that processed nothing still reports the pre-existing
target file under `Images`, while the outcome-list recomputation gives
zero. -/
theorem c5_counterexample :
    organize_loop id default_config "t" 3 [] wFsPre ⟨0, 0, 0, 0⟩ =
      some (wFsPre, ⟨0, 0, 0, 0⟩, []) ∧
    (generate_report default_config wFsPre ⟨0, 0, 0, 0⟩).map
      (fun r => r.category_stats "Images") = some 1 ∧
    outcomes_category_count [] "Images" = 0 := by
  refine ⟨by decide, by decide, by decide⟩

/-- C5 (amended): the aggregate counters of a run started from zeroed
statistics do equal the counts recomputed from the run's own outcome
list, but the report's statistics section is copied verbatim from the
mutable counters and its breakdowns are recomputed from the current
target-directory tree, which may disagree with the outcome list. -/
theorem c5_counters_match_outcomes :
    (∀ (hashFn : List Nat → List Nat) (cfg : Config) (today : String)
      (fuel : Nat) (files : List FPath) (fs fs' : FS) (st' : Stats)
      (os : List Outcome),
      organize_loop hashFn cfg today fuel files fs ⟨0, 0, 0, 0⟩ =
        some (fs', st', os) →
      st' = outcomes_counters os) ∧
    (∀ (cfg : Config) (fs : FS) (st : Stats), cfg.generate_report = true →
      (generate_report cfg fs st).map Report.statistics = some st) := by
  constructor
  · intro hashFn cfg today fuel files fs fs' st' os hrun
    obtain ⟨_, hp, hm, hd, he⟩ :=
      organize_loop_trace hashFn cfg today fuel files fs ⟨0, 0, 0, 0⟩ fs' st' os hrun
    cases st'
    simp only [outcomes_counters, Stats.mk.injEq]
    simp only at hp hm hd he
    omega
  · intro cfg fs st h
    simp [generate_report, h]

/-- C5 amended-claim witness: the tiny run's final statistics equal the
outcome recomputation, and the report copies the statistics verbatim. -/
theorem c5_counters_match_outcomes_witness :
    ((⟨1, 0, 0, 0⟩ : Stats) = outcomes_counters [Outcome.skipped_small wTiny]) ∧
    (generate_report default_config wFsPre ⟨3, 1, 1, 1⟩).map Report.statistics =
      some ⟨3, 1, 1, 1⟩ := by
  exact ⟨c5_counters_match_outcomes.1 id wCfg5 "t" 3 [wTiny] wFsTiny wFsTiny
    ⟨1, 0, 0, 0⟩ [Outcome.skipped_small wTiny] (by decide),
    c5_counters_match_outcomes.2 default_config wFsPre ⟨3, 1, 1, 1⟩ rfl⟩

/-! ## The classifier (C9) -/

theorem char_toLower_idem (c : Char) : c.toLower.toLower = c.toLower := by
  unfold Char.toLower
  by_cases h : c.toNat ≥ 65 ∧ c.toNat ≤ 90
  · rw [if_pos h]
    have hvalid : (c.toNat + 32).isValidChar := Or.inl (by omega)
    have hval : (Char.ofNat (c.toNat + 32)).toNat = c.toNat + 32 := by
      unfold Char.ofNat
      rw [dif_pos hvalid]
      rfl
    rw [if_neg]
    rw [hval]
    omega
  · rw [if_neg h, if_neg h]

theorem str_toLower_eq (s : String) : str_toLower s = s.toLower := by
  unfold String.toLower str_toLower
  rw [String.map_eq]

theorem str_toLower_idem (s : String) : str_toLower (str_toLower s) = str_toLower s := by
  unfold str_toLower
  simp only [List.map_map]
  congr 1
  exact List.map_congr_left (fun a _ => char_toLower_idem a)

/-- C9: classification is case-insensitive (an extension and its
lowercased form classify identically), returns the first-declared
category whose extension list contains the lowercased extension, and
returns the fixed category `Others` when no configured category
matches; as a pure total function it has no side effects and never
fails. -/
theorem c9_classifier_spec :
    (∀ (ft : List (String × List String)) (ext : String),
      get_file_category ft ext = get_file_category ft ext.toLower) ∧
    (∀ (pre post : List (String × List String)) (c : String)
      (exts : List String) (ext : String),
      (∀ p ∈ pre, p.2.contains ext.toLower = false) →
      exts.contains ext.toLower = true →
      get_file_category (pre ++ (c, exts) :: post) ext = c) ∧
    (∀ (ft : List (String × List String)) (ext : String),
      (∀ p ∈ ft, p.2.contains ext.toLower = false) →
      get_file_category ft ext = "Others") := by
  refine ⟨?_, ?_, ?_⟩
  · intro ft ext
    simp only [get_file_category, ← str_toLower_eq, str_toLower_idem]
  · intro pre post c exts ext h1 h2
    simp only [← str_toLower_eq] at h1 h2
    have hpre : pre.find? (fun p => p.2.contains (str_toLower ext)) = none :=
      List.find?_eq_none.2 (fun x hx => by simpa using h1 x hx)
    have hcons : ((c, exts) :: post).find?
        (fun p => p.2.contains (str_toLower ext)) = some (c, exts) :=
      List.find?_cons_of_pos _ h2
    simp only [get_file_category, List.find?_append, hpre, hcons, Option.none_or]
  · intro ft ext h1
    simp only [← str_toLower_eq] at h1
    have hft : ft.find? (fun p => p.2.contains (str_toLower ext)) = none :=
      List.find?_eq_none.2 (fun x hx => by simpa using h1 x hx)
    simp only [get_file_category, hft]

/-- C9 witness: `.TXT` classifies like `.txt`; the first-declared
matching category wins on a two-category table; an unknown extension
answers `Others`. -/
theorem c9_classifier_spec_witness :
    get_file_category default_file_types ".TXT" =
      get_file_category default_file_types (String.toLower ".TXT") ∧
    get_file_category ([("A", [".a"])] ++ ("B", [".b"]) :: []) ".B" = "B" ∧
    get_file_category default_file_types ".xyz" = "Others" := by
  exact ⟨c9_classifier_spec.1 default_file_types ".TXT",
    c9_classifier_spec.2.1 [("A", [".a"])] [] "B" [".b"] ".B"
      (by simp only [← str_toLower_eq]; decide)
      (by simp only [← str_toLower_eq]; decide),
    c9_classifier_spec.2.2 default_file_types ".xyz"
      (by simp only [← str_toLower_eq]; decide)⟩

/-! ## C1: two byte-identical files mapping to the same destination -/

/-- C1 is false as universally stated: the duplicate check compares a
file's content only against the file occupying the exact candidate
path.  When a third file of different content reaches the shared
destination first, the two byte-identical files are each renamed with
`_copy{N}` and BOTH are moved — neither is skipped and
`duplicates_found` stays 0. -/
theorem c1_counterexample :
    wCfg0.handle_duplicates = true ∧
    wDataA.content = wDataA2.content ∧
    candidate_dest wCfg0 wB wDataA = candidate_dest wCfg0 wC wDataA2 ∧
    organize_loop id wCfg0 "t" 5 [wX, wB, wC] wFsTriple ⟨0, 0, 0, 0⟩ =
      some ([(wCopy2, wDataA2), (wCopy1, wDataA), (wDest, wDataX)],
        ⟨3, 3, 0, 0⟩,
        [Outcome.moved wX wDest "Documents" ".txt" 1,
         Outcome.moved wB wCopy1 "Documents" ".txt" 2,
         Outcome.moved wC wCopy2 "Documents" ".txt" 2]) := by
  exact ⟨rfl, rfl, by decide, by decide⟩

/-- C1 (amended): in a run (with duplicate handling enabled) over two
files of byte-identical content that map to the same initially-free
candidate destination — the run consisting of those two files, so
nothing else claims the destination first — exactly one of them is
moved there and the other is skipped with `duplicates_found`
incremented: the destination holds exactly the moved file's data, the
skipped file remains at its source path, the moved file's source path
is gone, and `files_moved` grows by one only. -/
theorem c1_identical_duplicate (hashFn : List Nat → List Nat) (cfg : Config)
    (today : String) (fuel : Nat) (fs0 : FS) (st : Stats) (pa pb : FPath)
    (fdA fdB : FileData) (fs' : FS) (st' : Stats) (os : List Outcome)
    (hdup : cfg.handle_duplicates = true)
    (hpa : fs0.lookupPath pa = some fdA)
    (hpb : fs0.lookupPath pb = some fdB)
    (hcontent : fdA.content = fdB.content)
    (hra : fdA.readable = true) (hrb : fdB.readable = true)
    (hsa : fdA.stat_fails = false) (hsb : fdB.stat_fails = false)
    (hma : fdA.move_fails = false)
    (hbig : ¬ fdA.content.length < cfg.min_file_size_kb * 1024)
    (hdest : candidate_dest cfg pb fdB = candidate_dest cfg pa fdA)
    (hfree : fs0.existsPath (candidate_dest cfg pa fdA) = false)
    (hne : pa ≠ pb)
    (hrun : organize_loop hashFn cfg today fuel [pa, pb] fs0 st =
      some (fs', st', os)) :
    (∃ c e n, os = [Outcome.moved pa (candidate_dest cfg pa fdA) c e n,
        Outcome.skipped_duplicate pb]) ∧
    st'.files_processed = st.files_processed + 2 ∧
    st'.files_moved = st.files_moved + 1 ∧
    st'.duplicates_found = st.duplicates_found + 1 ∧
    st'.errors = st.errors ∧
    fs'.lookupPath (candidate_dest cfg pa fdA) = some fdA ∧
    fs'.lookupPath pb = some fdB ∧
    fs'.lookupPath pa = none := by
  have hexpa : fs0.existsPath pa = true := by simp [FS.existsPath, hpa]
  have hexpb : fs0.existsPath pb = true := by simp [FS.existsPath, hpb]
  have hDpa : ¬ candidate_dest cfg pa fdA = pa := by
    intro h; rw [h, hexpa] at hfree; cases hfree
  have hDpb : ¬ candidate_dest cfg pa fdA = pb := by
    intro h; rw [h, hexpb] at hfree; cases hfree
  have hsmallA : is_file_too_small cfg fs0 pa = false := by
    simp [is_file_too_small, hpa, hsa, hbig]
  cases fuel with
  | zero =>
      have hhd : ∀ s : Stats, handle_duplicate hashFn cfg 0 fs0 s pa
          (candidate_dest cfg pa fdA) = none := by
        intro s
        simp [handle_duplicate, hdup, duplicate_check, hfree, unique_name_loop]
      have hpf : process_file hashFn cfg today 0 fs0 st pa = none := by
        simp [process_file, hsmallA, hpa, hsa, hhd]
      simp only [organize_loop, hpf] at hrun
      exact Option.noConfusion hrun
  | succ f =>
      have hloopA : unique_name_loop fs0 (parentParts (candidate_dest cfg pa fdA))
          (splitName (lastComponent (candidate_dest cfg pa fdA))).1
          (splitName (lastComponent (candidate_dest cfg pa fdA))).2 "_copy"
          1 (candidate_dest cfg pa fdA) (f + 1) = some (candidate_dest cfg pa fdA) := by
        simp [unique_name_loop, hfree]
      have hhdA : ∀ s : Stats, handle_duplicate hashFn cfg (f + 1) fs0 s pa
          (candidate_dest cfg pa fdA) =
          some (s, some (candidate_dest cfg pa fdA)) := by
        intro s
        simp [handle_duplicate, hdup, duplicate_check, hfree, hloopA]
      cases hb : create_backup cfg today (f + 1) fs0 pa with
      | none =>
          have hpf : process_file hashFn cfg today (f + 1) fs0 st pa = none := by
            simp [process_file, hsmallA, hpa, hsa, hhdA, hb]
          simp only [organize_loop, hpf] at hrun
          exact Option.noConfusion hrun
      | some fs2 =>
          have hpres := create_backup_preserves cfg today (f + 1) fs0 pa fs2 hb
          have hstepA : process_file hashFn cfg today (f + 1) fs0 st pa =
              some ((fs2.erasePath pa).insertPath (candidate_dest cfg pa fdA) fdA,
                ⟨st.files_processed + 1, st.files_moved + 1,
                  st.duplicates_found, st.errors⟩,
                Outcome.moved pa (candidate_dest cfg pa fdA)
                  (get_file_category cfg.file_types (pathSuffix pa))
                  (pathSuffix pa) fdA.content.length) := by
            simp [process_file, hsmallA, hpa, hsa, hhdA, hb, hma]
          have hfs1D : ((fs2.erasePath pa).insertPath (candidate_dest cfg pa fdA)
              fdA).lookupPath (candidate_dest cfg pa fdA) = some fdA := by
            rw [lookupPath_insertPath, if_pos rfl]
          have hfs2pb : fs2.lookupPath pb = some fdB := by
            rw [hpres pb hexpb, hpb]
          have hfs1pb : ((fs2.erasePath pa).insertPath (candidate_dest cfg pa fdA)
              fdA).lookupPath pb = some fdB := by
            rw [lookupPath_insertPath, if_neg hDpb, lookupPath_erasePath,
              if_neg (fun h : pb = pa => hne h.symm), hfs2pb]
          have hfs1pa : ((fs2.erasePath pa).insertPath (candidate_dest cfg pa fdA)
              fdA).lookupPath pa = none := by
            rw [lookupPath_insertPath, if_neg hDpa, lookupPath_erasePath, if_pos rfl]
          have hsmallB : is_file_too_small cfg
              ((fs2.erasePath pa).insertPath (candidate_dest cfg pa fdA) fdA)
              pb = false := by
            simp only [is_file_too_small, hfs1pb, hsb]
            rw [if_neg (by simp)]
            rw [← hcontent]
            simp [hbig]
          have hchkB : duplicate_check hashFn
              ((fs2.erasePath pa).insertPath (candidate_dest cfg pa fdA) fdA)
              pb (candidate_dest cfg pa fdA) = true := by
            simp [duplicate_check, FS.existsPath, hfs1D, calculate_file_hash,
              hfs1pb, hra, hrb, hcontent]
          have hhdB : ∀ s : Stats, handle_duplicate hashFn cfg (f + 1)
              ((fs2.erasePath pa).insertPath (candidate_dest cfg pa fdA) fdA)
              s pb (candidate_dest cfg pa fdA) =
              some ({ s with duplicates_found := s.duplicates_found + 1 },
                none) := by
            intro s
            simp [handle_duplicate, hdup, hchkB]
          have hstepB : process_file hashFn cfg today (f + 1)
              ((fs2.erasePath pa).insertPath (candidate_dest cfg pa fdA) fdA)
              ⟨st.files_processed + 1, st.files_moved + 1,
                st.duplicates_found, st.errors⟩ pb =
              some ((fs2.erasePath pa).insertPath (candidate_dest cfg pa fdA) fdA,
                ⟨st.files_processed + 1 + 1, st.files_moved + 1,
                  st.duplicates_found + 1, st.errors⟩,
                Outcome.skipped_duplicate pb) := by
            simp [process_file, hsmallB, hfs1pb, hsb, hdest, hhdB]
          simp only [organize_loop, hstepA, hstepB, Option.some.injEq,
            Prod.mk.injEq] at hrun
          obtain ⟨h1, h2, h3⟩ := hrun
          subst h1; subst h2; subst h3
          refine ⟨⟨_, _, _, rfl⟩, by simp, by simp, by simp, by simp,
            hfs1D, hfs1pb, hfs1pa⟩

/-- C1 witness: the concrete duplicate scenario (`a.txt` and
`sub/a.txt`, identical bytes): one is moved to the destination, the
other remains at the source and is counted as a duplicate. -/
theorem c1_identical_duplicate_witness :
    (∃ c e n, ([Outcome.moved wSrcA wDest "Documents" ".txt" 2,
        Outcome.skipped_duplicate wSrcB] : List Outcome) =
      [Outcome.moved wSrcA (candidate_dest wCfg0 wSrcA wDataA) c e n,
        Outcome.skipped_duplicate wSrcB]) ∧
    (⟨2, 1, 1, 0⟩ : Stats).files_processed =
      (⟨0, 0, 0, 0⟩ : Stats).files_processed + 2 ∧
    (⟨2, 1, 1, 0⟩ : Stats).files_moved = (⟨0, 0, 0, 0⟩ : Stats).files_moved + 1 ∧
    (⟨2, 1, 1, 0⟩ : Stats).duplicates_found =
      (⟨0, 0, 0, 0⟩ : Stats).duplicates_found + 1 ∧
    (⟨2, 1, 1, 0⟩ : Stats).errors = (⟨0, 0, 0, 0⟩ : Stats).errors ∧
    FS.lookupPath [(wDest, wDataA), (wSrcB, wDataA2)]
      (candidate_dest wCfg0 wSrcA wDataA) = some wDataA ∧
    FS.lookupPath [(wDest, wDataA), (wSrcB, wDataA2)] wSrcB = some wDataA2 ∧
    FS.lookupPath [(wDest, wDataA), (wSrcB, wDataA2)] wSrcA = none := by
  exact c1_identical_duplicate id wCfg0 "t" 3 wFsDup ⟨0, 0, 0, 0⟩ wSrcA wSrcB
    wDataA wDataA2 [(wDest, wDataA), (wSrcB, wDataA2)] ⟨2, 1, 1, 0⟩
    [Outcome.moved wSrcA wDest "Documents" ".txt" 2,
      Outcome.skipped_duplicate wSrcB]
    rfl (by decide) (by decide) rfl rfl rfl rfl rfl rfl (by decide)
    (by decide) (by decide) (by decide) (by decide)

/-! ## C3: differing content renamed to the least free copy index -/

/-- C3: when the candidate destination exists and the two content
digests were computed and differ, the resolver leaves the statistics
alone and returns `stem_copy{N}extension` in the destination's
directory for the least `N ≥ 1` whose name is unused; and in a run
over two files of differing content mapping to the same destination,
both end up on disk under distinct names, neither overwriting the
other. -/
theorem c3_differing_content_renamed :
    (∀ (hashFn : List Nat → List Nat) (cfg : Config) (fuel : Nat) (fs : FS)
      (st : Stats) (src tgt : FPath) (st' : Stats) (r : Option FPath)
      (hs ht : List Nat),
      cfg.handle_duplicates = true →
      fs.existsPath tgt = true →
      calculate_file_hash hashFn fs src = some hs →
      calculate_file_hash hashFn fs tgt = some ht →
      hs ≠ ht →
      handle_duplicate hashFn cfg fuel fs st src tgt = some (st', r) →
      st' = st ∧ ∃ n p, r = some p ∧ 1 ≤ n ∧
        p = loop_candidate (parentParts tgt) (splitName (lastComponent tgt)).1
          "_copy" (splitName (lastComponent tgt)).2 n ∧
        fs.existsPath p = false ∧
        ∀ m, 1 ≤ m → m < n →
          fs.existsPath (loop_candidate (parentParts tgt)
            (splitName (lastComponent tgt)).1 "_copy"
            (splitName (lastComponent tgt)).2 m) = true) ∧
    (∀ (hashFn : List Nat → List Nat) (cfg : Config) (today : String)
      (fuel : Nat) (fs0 : FS) (st : Stats) (pa pb : FPath) (fdA fdB : FileData)
      (fs' : FS) (st' : Stats) (os : List Outcome),
      cfg.handle_duplicates = true →
      fs0.lookupPath pa = some fdA →
      fs0.lookupPath pb = some fdB →
      hashFn fdA.content ≠ hashFn fdB.content →
      fdA.readable = true → fdB.readable = true →
      fdA.stat_fails = false → fdB.stat_fails = false →
      fdA.move_fails = false → fdB.move_fails = false →
      ¬ fdA.content.length < cfg.min_file_size_kb * 1024 →
      ¬ fdB.content.length < cfg.min_file_size_kb * 1024 →
      candidate_dest cfg pb fdB = candidate_dest cfg pa fdA →
      fs0.existsPath (candidate_dest cfg pa fdA) = false →
      pa ≠ pb →
      organize_loop hashFn cfg today fuel [pa, pb] fs0 st =
        some (fs', st', os) →
      ∃ p, ¬ p = candidate_dest cfg pa fdA ∧
        (∃ c e c' e', os = [Outcome.moved pa (candidate_dest cfg pa fdA) c e
            fdA.content.length,
          Outcome.moved pb p c' e' fdB.content.length]) ∧
        fs'.lookupPath (candidate_dest cfg pa fdA) = some fdA ∧
        fs'.lookupPath p = some fdB ∧
        st'.files_moved = st.files_moved + 2 ∧
        st'.duplicates_found = st.duplicates_found) := by
  constructor
  · intro hashFn cfg fuel fs st src tgt st' r hs ht hdup hex hsh hth hne h
    have hchk : duplicate_check hashFn fs src tgt = false := by
      unfold duplicate_check
      rw [if_pos hex, hsh, hth]
      simp [hne]
    simp only [handle_duplicate, hdup, Bool.not_true, Bool.false_eq_true,
      if_false, hchk] at h
    cases hloop : unique_name_loop fs (parentParts tgt)
        (splitName (lastComponent tgt)).1 (splitName (lastComponent tgt)).2
        "_copy" 1 tgt fuel with
    | none =>
        rw [hloop] at h
        exact Option.noConfusion h
    | some p =>
        rw [hloop] at h
        simp only [Option.some.injEq, Prod.mk.injEq] at h
        obtain ⟨h1, h2⟩ := h
        obtain ⟨hfreep, hcase⟩ := unique_name_loop_spec fs (parentParts tgt)
          (splitName (lastComponent tgt)).1 (splitName (lastComponent tgt)).2
          "_copy" fuel 1 tgt p hloop
        rcases hcase with hptgt | ⟨_, n, hn1, hpn, hall⟩
        · rw [hptgt] at hfreep
          rw [hex] at hfreep
          cases hfreep
        · exact ⟨h1.symm, n, p, h2.symm, hn1, hpn, hfreep, hall⟩
  · intro hashFn cfg today fuel fs0 st pa pb fdA fdB fs' st' os hdup hpa hpb
      hhne hra hrb hsa hsb hma hmb hbigA hbigB hdest hfree hne hrun
    have hexpa : fs0.existsPath pa = true := by simp [FS.existsPath, hpa]
    have hexpb : fs0.existsPath pb = true := by simp [FS.existsPath, hpb]
    have hDpa : ¬ candidate_dest cfg pa fdA = pa := by
      intro h; rw [h, hexpa] at hfree; cases hfree
    have hDpb : ¬ candidate_dest cfg pa fdA = pb := by
      intro h; rw [h, hexpb] at hfree; cases hfree
    have hsmallA : is_file_too_small cfg fs0 pa = false := by
      simp [is_file_too_small, hpa, hsa, hbigA]
    cases fuel with
    | zero =>
        have hhd : ∀ s : Stats, handle_duplicate hashFn cfg 0 fs0 s pa
            (candidate_dest cfg pa fdA) = none := by
          intro s
          simp [handle_duplicate, hdup, duplicate_check, hfree, unique_name_loop]
        have hpf : process_file hashFn cfg today 0 fs0 st pa = none := by
          simp [process_file, hsmallA, hpa, hsa, hhd]
        simp only [organize_loop, hpf] at hrun
        exact Option.noConfusion hrun
    | succ f =>
        have hloopA : unique_name_loop fs0
            (parentParts (candidate_dest cfg pa fdA))
            (splitName (lastComponent (candidate_dest cfg pa fdA))).1
            (splitName (lastComponent (candidate_dest cfg pa fdA))).2 "_copy"
            1 (candidate_dest cfg pa fdA) (f + 1) =
            some (candidate_dest cfg pa fdA) := by
          simp [unique_name_loop, hfree]
        have hhdA : ∀ s : Stats, handle_duplicate hashFn cfg (f + 1) fs0 s pa
            (candidate_dest cfg pa fdA) =
            some (s, some (candidate_dest cfg pa fdA)) := by
          intro s
          simp [handle_duplicate, hdup, duplicate_check, hfree, hloopA]
        cases hb : create_backup cfg today (f + 1) fs0 pa with
        | none =>
            have hpf : process_file hashFn cfg today (f + 1) fs0 st pa = none := by
              simp [process_file, hsmallA, hpa, hsa, hhdA, hb]
            simp only [organize_loop, hpf] at hrun
            exact Option.noConfusion hrun
        | some fs2 =>
            have hpres := create_backup_preserves cfg today (f + 1) fs0 pa fs2 hb
            have hstepA : process_file hashFn cfg today (f + 1) fs0 st pa =
                some ((fs2.erasePath pa).insertPath (candidate_dest cfg pa fdA) fdA,
                  ⟨st.files_processed + 1, st.files_moved + 1,
                    st.duplicates_found, st.errors⟩,
                  Outcome.moved pa (candidate_dest cfg pa fdA)
                    (get_file_category cfg.file_types (pathSuffix pa))
                    (pathSuffix pa) fdA.content.length) := by
              simp [process_file, hsmallA, hpa, hsa, hhdA, hb, hma]
            have hfs1D : ((fs2.erasePath pa).insertPath (candidate_dest cfg pa fdA)
                fdA).lookupPath (candidate_dest cfg pa fdA) = some fdA := by
              rw [lookupPath_insertPath, if_pos rfl]
            have hfs2pb : fs2.lookupPath pb = some fdB := by
              rw [hpres pb hexpb, hpb]
            have hfs1pb : ((fs2.erasePath pa).insertPath (candidate_dest cfg pa fdA)
                fdA).lookupPath pb = some fdB := by
              rw [lookupPath_insertPath, if_neg hDpb, lookupPath_erasePath,
                if_neg (fun h : pb = pa => hne h.symm), hfs2pb]
            have hexfs1D : ((fs2.erasePath pa).insertPath (candidate_dest cfg pa fdA)
                fdA).existsPath (candidate_dest cfg pa fdA) = true := by
              simp [FS.existsPath, hfs1D]
            have hsmallB : is_file_too_small cfg
                ((fs2.erasePath pa).insertPath (candidate_dest cfg pa fdA) fdA)
                pb = false := by
              simp only [is_file_too_small, hfs1pb, hsb]
              rw [if_neg (by simp)]
              simp [hbigB]
            have hchkB : duplicate_check hashFn
                ((fs2.erasePath pa).insertPath (candidate_dest cfg pa fdA) fdA)
                pb (candidate_dest cfg pa fdA) = false := by
              unfold duplicate_check
              rw [if_pos hexfs1D]
              simp only [calculate_file_hash, hfs1pb, hfs1D, hrb, hra, if_pos]
              simp only [decide_eq_false_iff_not]
              exact fun h => hhne h.symm
            cases hloopB : unique_name_loop
                ((fs2.erasePath pa).insertPath (candidate_dest cfg pa fdA) fdA)
                (parentParts (candidate_dest cfg pa fdA))
                (splitName (lastComponent (candidate_dest cfg pa fdA))).1
                (splitName (lastComponent (candidate_dest cfg pa fdA))).2 "_copy"
                1 (candidate_dest cfg pa fdA) (f + 1) with
            | none =>
                have hhdB : handle_duplicate hashFn cfg (f + 1)
                    ((fs2.erasePath pa).insertPath (candidate_dest cfg pa fdA) fdA)
                    ⟨st.files_processed + 1 + 1, st.files_moved + 1,
                      st.duplicates_found, st.errors⟩ pb
                    (candidate_dest cfg pa fdA) = none := by
                  simp only [handle_duplicate, hdup, Bool.not_true,
                    Bool.false_eq_true, if_false, hchkB, hloopB]
                have hpf : process_file hashFn cfg today (f + 1)
                    ((fs2.erasePath pa).insertPath (candidate_dest cfg pa fdA) fdA)
                    ⟨st.files_processed + 1, st.files_moved + 1,
                      st.duplicates_found, st.errors⟩ pb = none := by
                  simp [process_file, hsmallB, hfs1pb, hsb, hdest, hhdB]
                simp only [organize_loop, hstepA, hpf] at hrun
                exact Option.noConfusion hrun
            | some p =>
                obtain ⟨hfreep, _⟩ := unique_name_loop_spec
                  ((fs2.erasePath pa).insertPath (candidate_dest cfg pa fdA) fdA)
                  (parentParts (candidate_dest cfg pa fdA))
                  (splitName (lastComponent (candidate_dest cfg pa fdA))).1
                  (splitName (lastComponent (candidate_dest cfg pa fdA))).2
                  "_copy" (f + 1) 1 (candidate_dest cfg pa fdA) p hloopB
                have hpD : ¬ p = candidate_dest cfg pa fdA := by
                  intro h; rw [h, hexfs1D] at hfreep; cases hfreep
                have hhdB : ∀ s : Stats, handle_duplicate hashFn cfg (f + 1)
                    ((fs2.erasePath pa).insertPath (candidate_dest cfg pa fdA) fdA)
                    s pb (candidate_dest cfg pa fdA) = some (s, some p) := by
                  intro s
                  simp only [handle_duplicate, hdup, Bool.not_true,
                    Bool.false_eq_true, if_false, hchkB, hloopB]
                cases hb2 : create_backup cfg today (f + 1)
                    ((fs2.erasePath pa).insertPath (candidate_dest cfg pa fdA) fdA)
                    pb with
                | none =>
                    have hpf : process_file hashFn cfg today (f + 1)
                        ((fs2.erasePath pa).insertPath
                          (candidate_dest cfg pa fdA) fdA)
                        ⟨st.files_processed + 1, st.files_moved + 1,
                          st.duplicates_found, st.errors⟩ pb = none := by
                      simp [process_file, hsmallB, hfs1pb, hsb, hdest, hhdB, hb2]
                    simp only [organize_loop, hstepA, hpf] at hrun
                    exact Option.noConfusion hrun
                | some fs3 =>
                    have hpres2 := create_backup_preserves cfg today (f + 1)
                      ((fs2.erasePath pa).insertPath (candidate_dest cfg pa fdA)
                        fdA) pb fs3 hb2
                    have hstepB : process_file hashFn cfg today (f + 1)
                        ((fs2.erasePath pa).insertPath
                          (candidate_dest cfg pa fdA) fdA)
                        ⟨st.files_processed + 1, st.files_moved + 1,
                          st.duplicates_found, st.errors⟩ pb =
                        some ((fs3.erasePath pb).insertPath p fdB,
                          ⟨st.files_processed + 1 + 1, st.files_moved + 1 + 1,
                            st.duplicates_found, st.errors⟩,
                          Outcome.moved pb p
                            (get_file_category cfg.file_types (pathSuffix pb))
                            (pathSuffix pb) fdB.content.length) := by
                      simp [process_file, hsmallB, hfs1pb, hsb, hdest, hhdB,
                        hb2, hmb]
                    simp only [organize_loop, hstepA, hstepB, Option.some.injEq,
                      Prod.mk.injEq] at hrun
                    obtain ⟨h1, h2, h3⟩ := hrun
                    subst h1; subst h2; subst h3
                    have hfs3D : fs3.lookupPath (candidate_dest cfg pa fdA) =
                        some fdA := by
                      rw [hpres2 (candidate_dest cfg pa fdA) hexfs1D, hfs1D]
                    refine ⟨p, hpD, ⟨_, _, _, _, rfl⟩, ?_, ?_, by simp, by simp⟩
                    · rw [lookupPath_insertPath, if_neg hpD, lookupPath_erasePath,
                        if_neg hDpb, hfs3D]
                    · rw [lookupPath_insertPath, if_pos rfl]

/-- C3 witness: the concrete collision resolves to `a_copy1.txt` (the
least free index), and in the two-file differing-content run both
files end up on disk under distinct names. -/
theorem c3_differing_content_renamed_witness :
    ((⟨0, 0, 0, 0⟩ : Stats) = ⟨0, 0, 0, 0⟩ ∧
      ∃ n p, (some wCopy1 : Option FPath) = some p ∧ 1 ≤ n ∧
        p = loop_candidate (parentParts wDest) (splitName (lastComponent wDest)).1
          "_copy" (splitName (lastComponent wDest)).2 n ∧
        FS.existsPath wFsOcc p = false ∧
        ∀ m, 1 ≤ m → m < n →
          FS.existsPath wFsOcc (loop_candidate (parentParts wDest)
            (splitName (lastComponent wDest)).1 "_copy"
            (splitName (lastComponent wDest)).2 m) = true) ∧
    (∃ p, ¬ p = candidate_dest wCfg0 wSrcA wDataA ∧
      (∃ c e c' e', ([Outcome.moved wSrcA wDest "Documents" ".txt" 2,
          Outcome.moved wSrcB wCopy1 "Documents" ".txt" 2] : List Outcome) =
        [Outcome.moved wSrcA (candidate_dest wCfg0 wSrcA wDataA) c e
            wDataA.content.length,
          Outcome.moved wSrcB p c' e' wDataB.content.length]) ∧
      FS.lookupPath [(wCopy1, wDataB), (wDest, wDataA)]
        (candidate_dest wCfg0 wSrcA wDataA) = some wDataA ∧
      FS.lookupPath [(wCopy1, wDataB), (wDest, wDataA)] p = some wDataB ∧
      (⟨2, 2, 0, 0⟩ : Stats).files_moved = (⟨0, 0, 0, 0⟩ : Stats).files_moved + 2 ∧
      (⟨2, 2, 0, 0⟩ : Stats).duplicates_found =
        (⟨0, 0, 0, 0⟩ : Stats).duplicates_found) := by
  constructor
  · exact c3_differing_content_renamed.1 id wCfg0 3 wFsOcc ⟨0, 0, 0, 0⟩ wSrcA
      wDest ⟨0, 0, 0, 0⟩ (some wCopy1) [1, 2] [3, 4] rfl (by decide)
      (by decide) (by decide) (by decide) (by decide)
  · exact c3_differing_content_renamed.2 id wCfg0 "t" 3 wFsColl ⟨0, 0, 0, 0⟩
      wSrcA wSrcB wDataA wDataB [(wCopy1, wDataB), (wDest, wDataA)] ⟨2, 2, 0, 0⟩
      [Outcome.moved wSrcA wDest "Documents" ".txt" 2,
        Outcome.moved wSrcB wCopy1 "Documents" ".txt" 2]
      rfl (by decide) (by decide) (by decide) rfl rfl rfl rfl rfl rfl
      (by decide) (by decide) (by decide) (by decide) (by decide) (by decide)

end FileAuto
